import Mathlib

/-!
Verification of the update-detection and fast-forward core of `taur`
(src/main.rs), a small AUR helper.  The VCS library (git2) is an external
collaborator; following the spec's boundary (§2, "VCS Adapter") its
operations — open, fetch, revision resolution, reachability walk, ref
update, forced checkout — are modelled here as pure functions on an
explicit repository state, while the functions of `main.rs`
(`check_repo_updates`, `pull_package`, `pull`, `fetch`,
`print_update_info`, `get_dir_list`, `search`) are translated directly
from the Rust source.  ANSI styling sequences (termion) and the
floating-point popularity column are rendering collaborators and are
omitted from the modelled output lines.
-/

namespace Taur

/-- Commit object: parent ids and an optional message.  `none` models a
commit message that is not valid UTF-8, for which git2's
`Commit::message()` returns `None` (src/main.rs line 404 pattern-matches
on that option). -/
structure Commit where
  parents : List Nat
  message : Option String
deriving DecidableEq, Repr

/-- Commit object store of a repository: association list from revision
id to commit object.  A `RevisionId` is opaque (spec §3); it is modelled
as a `Nat` compared only for equality. -/
abbrev CommitGraph := List (Nat × Commit)

/-- Parent ids of a revision, empty when the id is not in the store. -/
def parentsOf (g : CommitGraph) (i : Nat) : List Nat :=
  ((g.lookup i).map Commit.parents).getD []

/-- One expansion step of the reachability closure: keep the frontier and
add every parent of a frontier element. -/
def reachStep (g : CommitGraph) (s : List Nat) : List Nat :=
  (s ++ s.flatMap (parentsOf g)).dedup

/-- All revisions reachable from `a` through parent edges (the ancestor
set, `a` included).  Iterating one more time than there are stored
commits saturates the closure. -/
def reachSet (g : CommitGraph) (a : Nat) : List Nat :=
  Nat.iterate (reachStep g) (g.length + 1) [a]

/-- Reachable-set difference (spec §3): ids of stored commits reachable
from `up` but not reachable from `loc`, in object-store order.  This is
the contract of git2's revwalk with `push(up)` and `hide(loc)`
(src/main.rs lines 391-394). -/
def revDiff (g : CommitGraph) (up loc : Nat) : List Nat :=
  (g.map Prod.fst).filter (fun i => (reachSet g up).contains i && !((reachSet g loc).contains i))

/-- Message of the stored commit `i`, as git2 reports it. -/
def msgAt (g : CommitGraph) (i : Nat) : Option String :=
  (g.lookup i).bind Commit.message

/-- Where HEAD points: either the symbolic ref `refs/heads/master` (the
only branch the program ever touches) or a detached commit. -/
inductive HeadRef where
  | onMaster
  | detached (id : Nat)
deriving DecidableEq, Repr

/-- Configured upstream of the local `master` branch, deciding what the
revision expression `@\x7bu\x7d` resolves to: the remote-tracking ref
`refs/remotes/origin/master` (the ref updated by fetching `origin`
`master`), some other ref untouched by that fetch, or no upstream
configured (resolution then fails). -/
inductive UpstreamCfg where
  | originMaster
  | otherRef (target : Nat)
  | unset
deriving DecidableEq, Repr

/-- On-disk state of one local repository, restricted to what the
program reads or writes: object store, the `refs/heads/master` target,
HEAD, the `refs/remotes/origin/master` target, the upstream
configuration, `FETCH_HEAD`, and the commit the working tree matches. -/
structure GitRepo where
  graph : CommitGraph
  masterTarget : Nat
  headRef : HeadRef
  originMasterTarget : Nat
  upstreamCfg : UpstreamCfg
  fetchHead : Option Nat
  workdir : Nat
deriving DecidableEq, Repr

/-- The remote (`origin`) side: its object store and its `master` tip. -/
structure Remote where
  graph : CommitGraph
  masterTip : Nat
deriving DecidableEq, Repr

/-- A package repository directory together with the failure modes the
program handles: `openFails` models `Repository::open` failing
(missing/corrupt repository), `fetchFails` models `find_remote`/`fetch`
failing (no `origin`, network error). -/
structure PkgRepo where
  openFails : Bool
  fetchFails : Bool
  repo : GitRepo
  origin : Remote
deriving DecidableEq, Repr

/-- Union of object stores, keeping local objects on id clash. -/
def mergeGraph (g r : CommitGraph) : CommitGraph :=
  g ++ r.filter (fun p => (g.lookup p.1).isNone)

/-- Effect of `remote.fetch(&[\x22master\x22], None, None)` on the local
repository (src/main.rs line 385): remote objects enter the store, the
remote-tracking ref `refs/remotes/origin/master` and `FETCH_HEAD` are
set to the remote `master` tip.  Branch heads, HEAD and the working tree
are untouched. -/
def fetchOrigin (r : GitRepo) (o : Remote) : GitRepo :=
  { r with graph := mergeGraph r.graph o.graph,
           originMasterTarget := o.masterTip,
           fetchHead := some o.masterTip }

/-- Resolution of `revparse_single(\x22HEAD\x22)`. -/
def revparseHead (r : GitRepo) : Nat :=
  match r.headRef with
  | .onMaster => r.masterTarget
  | .detached i => i

/-- Resolution of `revparse_single(\x22@\x7bu\x7d\x22)`: fails on a
detached HEAD or when no upstream is configured. -/
def resolveUpstream (r : GitRepo) : Option Nat :=
  match r.headRef with
  | .detached _ => none
  | .onMaster =>
    match r.upstreamCfg with
    | .originMaster => some r.originMasterTarget
    | .otherRef t => some t
    | .unset => none

/-- Error taxonomy of the modelled operations (spec §7). -/
inductive GitError where
  | repoOpen
  | network
  | revisionResolution
  | refNotFound
deriving DecidableEq, Repr

/-- Divergence record (struct `UpdateInfo`, src/main.rs lines 59-63). -/
structure UpdateInfo where
  name : String
  commits : List String
deriving DecidableEq, Repr

/-- Translation of `check_repo_updates` (src/main.rs lines 379-416):
open the repository, fetch `origin` `master`, resolve HEAD and upstream,
and if the two ids differ walk the reachability difference collecting
the messages of the commits that have one.  Returns the post-fetch
repository state together with the result, since the fetch's side effect
on the on-disk state persists even when a later step fails. -/
def check_repo_updates (dirName : String) (pkg : PkgRepo) :
    GitRepo × Except GitError (Option UpdateInfo) :=
  if pkg.openFails then (pkg.repo, .error .repoOpen)
  else if pkg.fetchFails then (pkg.repo, .error .network)
  else
    let r := fetchOrigin pkg.repo pkg.origin
    let localRev := revparseHead r
    match resolveUpstream r with
    | none => (r, .error .revisionResolution)
    | some remoteRev =>
      if localRev ≠ remoteRev then
        let commits := (revDiff r.graph remoteRev localRev).filterMap (msgAt r.graph)
        (r, .ok (some { name := dirName, commits := commits }))
      else
        (r, .ok none)

/-- Translation of `pull_package` (src/main.rs lines 300-351): open the
repository, run the checker; on no divergence print the message and
return; on divergence print the name and the commit messages, move
`refs/heads/master` to the id `FETCH_HEAD` resolves to, set HEAD to that
branch, and force-checkout the working tree to the new HEAD.  Returns
the updated package state, the stdout lines, and the result. -/
def pull_package (name : String) (pkg : PkgRepo) :
    PkgRepo × List String × Except GitError Unit :=
  if pkg.openFails then (pkg, [], .error .repoOpen)
  else
    match check_repo_updates name pkg with
    | (r, .error e) => ({ pkg with repo := r }, [], .error e)
    | (r, .ok none) => ({ pkg with repo := r }, ["No new commits to pull"], .ok ())
    | (r, .ok (some ui)) =>
      let out := (s!"Pulling {name}...") :: "" :: ui.commits.map (fun c => s!"* {c}")
      match r.fetchHead with
      | none => ({ pkg with repo := r }, out, .error .refNotFound)
      | some f =>
        ({ pkg with repo := { r with masterTarget := f, headRef := .onMaster, workdir := f } },
         out, .ok ())

/-- Replace the entry for `k` in an association list. -/
def updateAssoc (l : List (String × PkgRepo)) (k : String) (v : PkgRepo) :
    List (String × PkgRepo) :=
  l.map (fun p => if p.1 = k then (k, v) else p)

/-- Translation of `pull` (src/main.rs lines 273-298): one unit of work
per NAMED package, each running `pull_package` and logging a failure
without propagating it.  The repos root is modelled as an association
list from directory name to package repository; a name not present makes
`Repository::open` fail inside `pull_package`, which is logged.  The
loop iterates over exactly `package_names`: an empty list spawns no
units. -/
def pull (fs : List (String × PkgRepo)) (package_names : List String) :
    List (String × PkgRepo) × List String × List String :=
  package_names.foldl
    (fun acc name =>
      match (acc.1.lookup name) with
      | none => (acc.1, acc.2.1, acc.2.2 ++ ["Error while pulling package"])
      | some pkg =>
        let res := pull_package name pkg
        (updateAssoc acc.1 name res.1, acc.2.1 ++ res.2.1,
         match res.2.2 with
         | .ok _ => acc.2.2
         | .error _ => acc.2.2 ++ ["Error while pulling package"]))
    (fs, [], [])

/-- Insertion into a list sorted ascending by the string key `key`,
keeping existing elements with an equal key in front (stable). -/
def insertOn {α : Type} (key : α → String) (a : α) : List α → List α
  | [] => [a]
  | b :: t => if key a ≤ key b then a :: b :: t else b :: insertOn key a t

/-- Sort ascending by the string key `key`.  Models the by-name sorts of
the source: `update_infos.sort_unstable()` (line 369, whose `Ord` on
`UpdateInfo` compares only names, lines 93-97) and
`pkgs.sort_unstable_by(|a, b| a.name.cmp(&b.name))` (line 238).
`sort_unstable` guarantees only some permutation ordered by the
comparator; every property proved below about the sort holds for any
such permutation, and where uniqueness of the sorted result is needed
(the aggregator's order-independence) pairwise-distinct keys are
required, which makes all ordered permutations equal. -/
def sortOn {α : Type} (key : α → String) : List α → List α
  | [] => []
  | a :: t => insertOn key a (sortOn key t)

/-- Lines of one rendered `UpdateInfo` block (`impl Display for
UpdateInfo`, src/main.rs lines 65-91, plus the trailing blank line the
`println!` in `print_update_info` adds): name header, blank, one bullet
per commit message, blank. -/
def renderUpdateInfo (ui : UpdateInfo) : List String :=
  let n := ui.name
  (s!":: {n}") :: "" :: (ui.commits.map (fun c => s!"* {c}") ++ [""])

/-- Translation of `print_update_info` (src/main.rs lines 360-377):
empty input prints the single no-updates line; otherwise a header, a
blank line, and the blocks of the by-name-sorted infos. -/
def print_update_info (update_infos : List UpdateInfo) : List String :=
  if !update_infos.isEmpty then
    "The following packages have upstream changes:" :: "" ::
      (sortOn UpdateInfo.name update_infos).flatMap renderUpdateInfo
  else
    ["There are currently no packages with upstream changes"]

/-- One entry yielded by the directory iterator of `read_dir`:
`readable = false` models an `Err(_)` item, `fileName = none` models
`Path::file_name()` returning `None`. -/
structure FsEntry where
  readable : Bool
  isDir : Bool
  fileName : Option String
deriving DecidableEq, Repr

/-- The per-entry mapping of `get_dir_list` (src/main.rs lines 423-436):
unreadable entries, non-directories and nameless entries all become the
default (empty) name. -/
def entryToName (e : FsEntry) : String :=
  if e.readable then
    if e.isDir then
      match e.fileName with
      | some f => f
      | none => ""
    else ""
  else ""

/-- Translation of `get_dir_list` (src/main.rs lines 418-441): map every
entry to a name (defaulting to empty) and drop the empty ones.  The
fallible outer `read_dir` call is modelled at the caller (`fetch`),
which receives the listing as an `Except`. -/
def get_dir_list (entries : List FsEntry) : List String :=
  (entries.map entryToName).filter (fun s => !s.isEmpty)

/-- Check of one repository directory inside the fetch loop: opening
`root/dir` fails when no repository is stored under that name. -/
def checkAt (fs : List (String × PkgRepo)) (dir : String) :
    Except GitError (Option UpdateInfo) :=
  match fs.lookup dir with
  | none => .error .repoOpen
  | some pkg => (check_repo_updates dir pkg).2

/-- The per-directory units of the fetch loop (src/main.rs lines
202-227): a unit whose check fails logs one line to the error stream and
contributes nothing; a unit with no divergence contributes nothing; a
diverged unit sends its `UpdateInfo` into the channel.  The channel's
arrival order is non-deterministic; the model collects in spawn order
(every claim proved below is insensitive to this order).  Returns the
collected infos and the error-stream lines. -/
def runChecks (fs : List (String × PkgRepo)) : List String → List UpdateInfo × List String
  | [] => ([], [])
  | d :: ds =>
    let rest := runChecks fs ds
    match checkAt fs d with
    | .ok (some ui) => (ui :: rest.1, rest.2)
    | .ok none => rest
    | .error _ => (rest.1, "Error while checking for updates for repo" :: rest.2)

/-- Translation of `fetch` (src/main.rs lines 186-232): a failing
directory listing aborts the whole call via `?`; otherwise every listed
directory is checked in its own unit, the collected infos are rendered
by `print_update_info`, and per-unit errors go to the error stream.
Returns (stdout lines, error-stream lines). -/
def fetch (listing : Except String (List FsEntry)) (fs : List (String × PkgRepo)) :
    Except String (List String × List String) :=
  match listing with
  | .error e => .error e
  | .ok entries =>
    let res := runChecks fs (get_dir_list entries)
    .ok (print_update_info res.1, res.2)

/-- Checked natural subtraction, modelling Rust `usize` subtraction:
`none` when the true difference is negative, where the Rust program is
not total (debug builds panic on overflow; release builds wrap around,
making the subsequent `\x22 \x22.repeat(..)` attempt an astronomically
long string). -/
def checkedSub (a b : Nat) : Option Nat :=
  if b ≤ a then some (a - b) else none

/-- A search result row as far as the rendering arithmetic is concerned
(struct `raur::Package`): name and description.  The floating-point
popularity column and the ANSI styling are rendering collaborators and
not modelled. -/
structure SearchPkg where
  name : String
  description : String
deriving DecidableEq, Repr

/-- A run of `n` spaces, modelling `\x22 \x22.repeat(n)`. -/
def spaces (n : Nat) : String :=
  String.join (List.replicate n " ")

/-- Translation of the rendering part of `search` (src/main.rs lines
238-268): sort by name, print the no-match line on an empty result,
otherwise compute the longest name length and render the column header
padded with `max(longest_len - 3, 0)` spaces and one row per package
padded with `max(longest_len - name_len + 1, 0)` spaces.  Both
subtractions are `usize` subtractions, modelled by `checkedSub`; a
`none` result means the Rust program panics. -/
def search (pkgs : List SearchPkg) : Option (List String) :=
  let sorted := sortOn SearchPkg.name pkgs
  if sorted.length = 0 then some ["No packages found"]
  else
    let longest_len := (sorted.map (fun p => p.name.length)).foldr max 0
    match checkedSub longest_len 3 with
    | none => none
    | some hpad =>
      let header := "Pop  - Name" ++ spaces (max hpad 0) ++ "Description"
      let rows := sorted.mapM (fun p =>
        (checkedSub longest_len p.name.length).map (fun d =>
          p.name ++ spaces (max (d + 1) 0) ++ p.description))
      rows.map (fun rs => header :: rs)

/-- One possible execution of the fan-in machinery of `fetch`
(src/main.rs lines 199-227), given as the instants its events happen at:
`sendTime i` is the instant task `i` sends on the channel (`none` when
it sends nothing), `closeTime i` the instant task `i` finishes and its
clone of `tx` is dropped, `dropOrigTime` the instant the original `tx`
is dropped (line 221), `joinTime` the instant `join_all` returns (line
223) and `drainTime` the instant the drain loop over `rx` starts (line
225).  An event at instant `s` has happened before instant `t` iff
`s < t`. -/
structure FetchExec (n : Nat) where
  sendTime : Fin n → Option Nat
  closeTime : Fin n → Nat
  dropOrigTime : Nat
  joinTime : Nat
  drainTime : Nat

/-- The orderings every real execution of `fetch` satisfies, each forced
by the program text: a task's send happens inside the task body, so
before the task finishes (lines 205-217); `join_all` returns only after
every spawned task has finished (line 223); `drop(tx)` is executed
before the `await` of `join_all` (line 221 precedes line 223); and the
drain loop runs after that `await` (line 225). -/
def ValidFetchExec {n : Nat} (e : FetchExec n) : Prop :=
  (∀ i s, e.sendTime i = some s → s < e.closeTime i) ∧
  (∀ i, e.closeTime i < e.joinTime) ∧
  e.dropOrigTime < e.joinTime ∧
  e.joinTime < e.drainTime

/-- Number of send handles on the channel still open at instant `t`:
the original `tx` plus one clone per task not yet finished. -/
def openSenders {n : Nat} (e : FetchExec n) (t : Nat) : Nat :=
  (if e.dropOrigTime < t then 0 else 1) +
    (Finset.univ.filter (fun i : Fin n => !(decide (e.closeTime i < t)))).card

/-- Translation of `impl PartialEq for UpdateInfo` (src/main.rs lines
99-103): equality compares only the names. -/
def updateInfoEq (a b : UpdateInfo) : Bool :=
  a.name == b.name

/-- Translation of `impl Ord for UpdateInfo` (src/main.rs lines 93-97):
ordering compares only the names. -/
def updateInfoCmp (a b : UpdateInfo) : Ordering :=
  compare a.name b.name

/-- State of a repository after the checker's fetch of its origin. -/
def postFetch (pkg : PkgRepo) : GitRepo :=
  fetchOrigin pkg.repo pkg.origin

/-- Ids the checker's revwalk yields for a diverged repository whose
upstream resolved to `u`: reachable from `u`, not from local HEAD. -/
def newCommitIds (pkg : PkgRepo) (u : Nat) : List Nat :=
  revDiff (postFetch pkg).graph u (revparseHead (postFetch pkg))

/-- Messages the checker collects for those ids (commits without a
decodable message are skipped, src/main.rs line 404). -/
def newCommitMsgs (pkg : PkgRepo) (u : Nat) : List String :=
  (newCommitIds pkg u).filterMap (msgAt (postFetch pkg).graph)

/-- Object store used by the concrete C2 scenario: the local HEAD commit
0 and the new upstream commit 1 carry the same message text, and the new
upstream commit 2 carries a message that is not valid UTF-8. -/
def gC2 : CommitGraph :=
  [(0, ⟨[], some "m"⟩), (1, ⟨[0], some "m"⟩), (2, ⟨[1], none⟩)]

/-- Repository two commits behind its upstream, in the standard
configuration (HEAD on master, master tracking origin/master). -/
def exC2 : PkgRepo :=
  { openFails := false, fetchFails := false,
    repo := { graph := gC2, masterTarget := 0, headRef := .onMaster,
              originMasterTarget := 0, upstreamCfg := .originMaster,
              fetchHead := none, workdir := 0 },
    origin := { graph := gC2, masterTip := 2 } }

/-- Repository whose master branch is configured to track a ref other
than origin/master: the upstream expression resolves to commit 2 while
fetching origin writes commit 1 into FETCH_HEAD. -/
def exC3 : PkgRepo :=
  { openFails := false, fetchFails := false,
    repo := { graph := [(0, ⟨[], some "a"⟩), (1, ⟨[0], some "b"⟩), (2, ⟨[0], some "c"⟩)],
              masterTarget := 0, headRef := .onMaster,
              originMasterTarget := 0, upstreamCfg := .otherRef 2,
              fetchHead := none, workdir := 0 },
    origin := { graph := [(0, ⟨[], some "a"⟩), (1, ⟨[0], some "b"⟩)], masterTip := 1 } }

/-- Second repository with a non-origin/master upstream (tracking commit
3), used to exhibit the failure of pull idempotence there. -/
def exC4 : PkgRepo :=
  { openFails := false, fetchFails := false,
    repo := { graph := [(0, ⟨[], some "p"⟩), (1, ⟨[0], some "q"⟩), (3, ⟨[0], some "r"⟩)],
              masterTarget := 0, headRef := .onMaster,
              originMasterTarget := 0, upstreamCfg := .otherRef 3,
              fetchHead := none, workdir := 0 },
    origin := { graph := [(0, ⟨[], some "p"⟩), (1, ⟨[0], some "q"⟩)], masterTip := 1 } }

/-- Standard-configuration repository one commit behind upstream. -/
def exDiverged : PkgRepo :=
  { openFails := false, fetchFails := false,
    repo := { graph := [(0, ⟨[], some "base"⟩)], masterTarget := 0, headRef := .onMaster,
              originMasterTarget := 0, upstreamCfg := .originMaster,
              fetchHead := none, workdir := 0 },
    origin := { graph := [(0, ⟨[], some "base"⟩), (5, ⟨[0], some "add feature"⟩)],
                masterTip := 5 } }

/-- Standard-configuration repository already at its upstream tip. -/
def exClean : PkgRepo :=
  { openFails := false, fetchFails := false,
    repo := { graph := [(0, ⟨[], some "base"⟩)], masterTarget := 0, headRef := .onMaster,
              originMasterTarget := 0, upstreamCfg := .originMaster,
              fetchHead := none, workdir := 0 },
    origin := { graph := [(0, ⟨[], some "base"⟩)], masterTip := 0 } }

/-- A concrete one-task execution of the fetch fan-in: the task sends at
instant 0 and finishes at instant 1, the original sender is dropped at
instant 0 as well, the join returns at instant 2 and the drain starts at
instant 3. -/
def exFetchExec : FetchExec 1 :=
  { sendTime := fun _ => some 0, closeTime := fun _ => 1,
    dropOrigTime := 0, joinTime := 2, drainTime := 3 }

lemma mem_reachStep {g : CommitGraph} {s : List Nat} {x : Nat} (h : x ∈ s) :
    x ∈ reachStep g s := by
  simp only [reachStep, List.mem_dedup, List.mem_append]
  exact Or.inl h

lemma mem_iterate_reachStep (g : CommitGraph) (n : Nat) {s : List Nat} {x : Nat}
    (h : x ∈ s) : x ∈ Nat.iterate (reachStep g) n s := by
  induction n generalizing s with
  | zero => exact h
  | succ k ih => exact ih (mem_reachStep h)

lemma self_mem_reachSet (g : CommitGraph) (a : Nat) : a ∈ reachSet g a :=
  mem_iterate_reachStep g (g.length + 1) (List.mem_singleton.mpr rfl)

/-- The hidden revision itself is never an element of the walk: it is
reachable from itself, so the `hide` side excludes it. -/
lemma self_not_mem_revDiff (g : CommitGraph) (up loc : Nat) :
    loc ∉ revDiff g up loc := by
  intro h
  have hp := List.of_mem_filter h
  simp only [Bool.and_eq_true, Bool.not_eq_true] at hp
  have : (reachSet g loc).contains loc = true :=
    List.elem_eq_true_of_mem (self_mem_reachSet g loc)
  rw [this] at hp
  simp at hp

lemma length_filterMap_eq_countP {α β : Type} (f : α → Option β) (l : List α) :
    (l.filterMap f).length = l.countP (fun x => (f x).isSome) := by
  induction l with
  | nil => rfl
  | cons a t ih =>
    cases hfa : f a with
    | none => simp [List.filterMap_cons, List.countP_cons, hfa, ih]
    | some b => simp [List.filterMap_cons, List.countP_cons, hfa, ih]

lemma perm_insertOn {α : Type} (key : α → String) (a : α) (l : List α) :
    List.Perm (insertOn key a l) (a :: l) := by
  induction l with
  | nil => exact List.Perm.refl _
  | cons b t ih =>
    by_cases h : key a ≤ key b
    · simp [insertOn, h]
    · simp only [insertOn, if_neg h]
      exact (ih.cons b).trans (List.Perm.swap a b t)

lemma perm_sortOn {α : Type} (key : α → String) (l : List α) :
    List.Perm (sortOn key l) l := by
  induction l with
  | nil => exact List.Perm.refl _
  | cons a t ih => exact (perm_insertOn key a (sortOn key t)).trans (ih.cons a)

lemma pairwise_insertOn {α : Type} (key : α → String) (a : α) {l : List α}
    (h : l.Pairwise (fun x y => key x ≤ key y)) :
    (insertOn key a l).Pairwise (fun x y => key x ≤ key y) := by
  induction l with
  | nil => simp [insertOn]
  | cons b t ih =>
    rw [List.pairwise_cons] at h
    by_cases hab : key a ≤ key b
    · simp only [insertOn, if_pos hab]
      rw [List.pairwise_cons]
      constructor
      · intro y hy
        rcases List.mem_cons.mp hy with rfl | hyt
        · exact hab
        · exact le_trans hab (h.1 y hyt)
      · rw [List.pairwise_cons]
        exact h
    · simp only [insertOn, if_neg hab]
      rw [List.pairwise_cons]
      constructor
      · intro y hy
        rcases List.mem_cons.mp ((perm_insertOn key a t).mem_iff.mp hy) with rfl | hyt
        · exact le_of_lt (lt_of_not_le hab)
        · exact h.1 y hyt
      · exact ih h.2

lemma pairwise_sortOn {α : Type} (key : α → String) (l : List α) :
    (sortOn key l).Pairwise (fun x y => key x ≤ key y) := by
  induction l with
  | nil => simp [sortOn]
  | cons a t ih => exact pairwise_insertOn key a ih

/-- Two lists that are permutations of one another, both sorted by a
string key, with pairwise-distinct keys, are equal. -/
lemma eq_of_perm_of_pairwise_le {α : Type} (key : α → String) :
    ∀ {l₁ l₂ : List α}, List.Perm l₁ l₂ →
      l₁.Pairwise (fun x y => key x ≤ key y) →
      l₂.Pairwise (fun x y => key x ≤ key y) →
      (l₁.map key).Nodup → l₁ = l₂ := by
  intro l₁
  induction l₁ with
  | nil =>
    intro l₂ h _ _ _
    exact (h.nil_eq).symm ▸ rfl
  | cons a t₁ ih =>
    intro l₂ h hs₁ hs₂ hn
    cases l₂ with
    | nil => exact absurd h.symm.nil_eq (by simp)
    | cons b t₂ =>
      have hab : a = b := by
        rcases List.mem_cons.mp (h.mem_iff.mp (List.mem_cons_self a t₁)) with hab | hat₂
        · exact hab
        · rcases List.mem_cons.mp (h.symm.mem_iff.mp (List.mem_cons_self b t₂)) with hba | hbt₁
          · exact hba.symm
          · exfalso
            have h1 : key a ≤ key b := (List.pairwise_cons.mp hs₁).1 b hbt₁
            have h2 : key b ≤ key a := (List.pairwise_cons.mp hs₂).1 a hat₂
            have hkey : key a = key b := le_antisymm h1 h2
            have : key a ∉ (t₁.map key) := (List.nodup_cons.mp (by simpa using hn)).1
            exact this (hkey ▸ List.mem_map_of_mem key hbt₁)
      subst hab
      have ht : t₁ = t₂ :=
        ih h.cons_inv (List.pairwise_cons.mp hs₁).2 (List.pairwise_cons.mp hs₂).2
          (List.nodup_cons.mp (by simpa using hn)).2
      rw [ht]

/-- With pairwise-distinct keys, sorting is invariant under permutation
of the input: the result is the unique key-ordered permutation. -/
lemma sortOn_eq_of_perm {α : Type} (key : α → String) {l₁ l₂ : List α}
    (h : List.Perm l₁ l₂) (hn : (l₁.map key).Nodup) :
    sortOn key l₁ = sortOn key l₂ := by
  apply eq_of_perm_of_pairwise_le key
    ((perm_sortOn key l₁).trans (h.trans (perm_sortOn key l₂).symm))
    (pairwise_sortOn key l₁) (pairwise_sortOn key l₂)
  exact (((perm_sortOn key l₁).map key).nodup_iff).mpr hn

lemma map_key_insertOn {α : Type} (key : α → String) (a : α) (l : List α) :
    (insertOn key a l).map key = insertOn id (key a) (l.map key) := by
  induction l with
  | nil => rfl
  | cons b t ih =>
    by_cases h : key a ≤ key b
    · simp [insertOn, h]
    · simp [insertOn, h, ih]

/-- Sorting commutes with projecting the key: the sequence of keys of
the sorted list is the sorted sequence of keys, so the sort order is a
function of the keys alone. -/
lemma map_key_sortOn {α : Type} (key : α → String) (l : List α) :
    (sortOn key l).map key = sortOn id (l.map key) := by
  induction l with
  | nil => rfl
  | cons a t ih => simp [sortOn, map_key_insertOn, ih]

/-- The fetch loop's fold equals independent per-directory
contributions: each directory's unit decides its own entry in the
collected infos and in the error log, pointwise. -/
lemma runChecks_eq (fs : List (String × PkgRepo)) (dirs : List String) :
    runChecks fs dirs =
      (dirs.filterMap (fun d =>
         match checkAt fs d with | .ok (some ui) => some ui | _ => none),
       dirs.filterMap (fun d =>
         match checkAt fs d with
         | .error _ => some "Error while checking for updates for repo"
         | _ => none)) := by
  induction dirs with
  | nil => rfl
  | cons d ds ih =>
    cases h : checkAt fs d with
    | error e => simp [runChecks, h, ih]
    | ok o => cases o <;> simp [runChecks, h, ih]

/-- C1: pull invoked with an empty package list is a complete no-op over
a repos root that does contain a present, diverged repository: the
repository map is returned unchanged and nothing is printed or logged,
even though the same repository, when named explicitly, is diverged
(the checker yields an update) and pulling it would move its master
ref.  This contradicts the command's own help text (src/main.rs line
54: if no package is specified, all repositories are pulled) and spec
§6; the loop at src/main.rs lines 285-293 iterates over exactly the
named packages. -/
theorem claim_C1_pull_empty_is_noop :
    pull [("foo", exDiverged)] [] = ([("foo", exDiverged)], [], []) ∧
    (check_repo_updates "foo" exDiverged).2 = .ok (some ⟨"foo", ["add feature"]⟩) ∧
    (pull_package "foo" exDiverged).1.repo.masterTarget ≠ exDiverged.repo.masterTarget := by
  refine ⟨rfl, rfl, by decide⟩

/-- C5: once the directory listing has succeeded, the fetch operation
never aborts, its final report is the rendering of exactly the
`UpdateInfo`s of the directories whose check succeeded with a
divergence, and one error line is logged per directory whose check
failed — each directory's contribution is a function of that directory
alone, so a failing unit cannot alter or abort its siblings. -/
theorem claim_C5_partial_failure_isolation (entries : List FsEntry)
    (fs : List (String × PkgRepo)) :
    fetch (.ok entries) fs =
      .ok (print_update_info ((get_dir_list entries).filterMap (fun d =>
             match checkAt fs d with | .ok (some ui) => some ui | _ => none)),
           (get_dir_list entries).filterMap (fun d =>
             match checkAt fs d with
             | .error _ => some "Error while checking for updates for repo"
             | _ => none)) := by
  simp [fetch, runChecks_eq]

/-- C7: directory enumeration silently skips an entry that is
unreadable, not a directory, or nameless, keeps a named readable
directory, and a failure of the listing itself aborts the whole fetch
call with that error. -/
theorem claim_C7_dir_enumeration :
    (∀ (e : FsEntry) (es : List FsEntry),
      (e.readable = false ∨ e.isDir = false ∨ e.fileName = none) →
      get_dir_list (e :: es) = get_dir_list es) ∧
    (∀ (e : FsEntry) (es : List FsEntry) (f : String),
      e.readable = true → e.isDir = true → e.fileName = some f → f.isEmpty = false →
      get_dir_list (e :: es) = f :: get_dir_list es) ∧
    (∀ (msg : String) (fs : List (String × PkgRepo)),
      fetch (.error msg) fs = .error msg) := by
  refine ⟨?_, ?_, fun msg fs => rfl⟩
  · intro e es h
    rcases h with h | h | h <;>
    · simp [get_dir_list, entryToName, h]
      rfl
  · intro e es f hr hd hf hne
    simp [get_dir_list, entryToName, hr, hd, hf, hne]

/-- Witness for C7 at concrete entries: an unreadable entry and a plain
file are skipped, a readable directory named bar is kept, and a failed
listing aborts with its message. -/
theorem claim_C7_witness :
    get_dir_list [⟨false, true, some "lost"⟩] = get_dir_list [] ∧
    get_dir_list [⟨true, true, some "bar"⟩] = "bar" :: get_dir_list [] ∧
    fetch (.error "listing failed") [] = .error "listing failed" :=
  ⟨claim_C7_dir_enumeration.1 ⟨false, true, some "lost"⟩ [] (Or.inl rfl),
   claim_C7_dir_enumeration.2.1 ⟨true, true, some "bar"⟩ [] "bar" rfl rfl rfl rfl,
   claim_C7_dir_enumeration.2.2 "listing failed" []⟩

/-- C8: in every execution satisfying the orderings the program text
forces, at the instant the drain loop starts no send handle on the
channel is still open, every task has already completed, and every send
has already happened — so the collection is complete before aggregation
and the drain cannot block on a live sender. -/
theorem claim_C8_join_then_drain {n : Nat} (e : FetchExec n)
    (h : ValidFetchExec e) :
    openSenders e e.drainTime = 0 ∧
    (∀ i, e.closeTime i < e.drainTime) ∧
    (∀ i s, e.sendTime i = some s → s < e.drainTime) := by
  obtain ⟨hsend, hclose, hdrop, hjoin⟩ := h
  have hc : ∀ i, e.closeTime i < e.drainTime := fun i => lt_trans (hclose i) hjoin
  refine ⟨?_, hc, fun i s hs => lt_trans (hsend i s hs) (hc i)⟩
  unfold openSenders
  rw [if_pos (lt_trans hdrop hjoin)]
  rw [Nat.zero_add, Finset.card_eq_zero, Finset.filter_eq_empty_iff]
  intro i _
  simp [hc i]

/-- Witness for C8 at a concrete one-task execution. -/
theorem claim_C8_witness :
    openSenders exFetchExec exFetchExec.drainTime = 0 ∧
    (∀ i, exFetchExec.closeTime i < exFetchExec.drainTime) ∧
    (∀ i s, exFetchExec.sendTime i = some s → s < exFetchExec.drainTime) := by
  apply claim_C8_join_then_drain
  refine ⟨?_, ?_, ?_, ?_⟩
  · intro i s hs
    have hs0 : s = 0 := by
      have h0 : (some 0 : Option Nat) = some s := hs
      simpa using h0.symm
    rw [hs0]
    exact Nat.zero_lt_one
  · intro i
    exact Nat.one_lt_two
  · exact Nat.zero_lt_two
  · exact Nat.lt_succ_self 2

/-- C9: the search result rendering is NOT total: with every returned
package name shorter than 3 characters the header padding computes
`longest_len - 3` on `usize`, which underflows (a panic in debug
builds; in release builds it wraps and the subsequent `repeat` aborts).
The `max(longest_len - 3, 0)` guard at src/main.rs line 254 shows the
intended saturating behaviour, but on an unsigned type the subtraction
itself is the failure; the model returns `none` there.  An empty result
and a result with a long enough name render fine. -/
theorem claim_C9_search_header_underflow :
    search [⟨"ab", "utility"⟩] = none ∧
    search [] = some ["No packages found"] ∧
    search [⟨"abc", "tool"⟩] = some ["Pop  - NameDescription", "abc tool"] := by
  refine ⟨rfl, rfl, rfl⟩

/-- C10: equality and ordering of `UpdateInfo` are functions of the name
alone — replacing either commit list changes neither comparison, two
values sharing a name compare equal under both, and the key sequence of
the aggregator's sort is determined by the key sequence of the input,
commits ignored. -/
theorem claim_C10_updateinfo_compares_by_name_only :
    (∀ (n m : String) (cs cs2 ds ds2 : List String),
      updateInfoEq ⟨n, cs⟩ ⟨m, ds⟩ = updateInfoEq ⟨n, cs2⟩ ⟨m, ds2⟩ ∧
      updateInfoCmp ⟨n, cs⟩ ⟨m, ds⟩ = updateInfoCmp ⟨n, cs2⟩ ⟨m, ds2⟩) ∧
    (∀ (n : String) (cs ds : List String),
      updateInfoEq ⟨n, cs⟩ ⟨n, ds⟩ = true ∧
      updateInfoCmp ⟨n, cs⟩ ⟨n, ds⟩ = Ordering.eq) ∧
    (∀ l : List UpdateInfo,
      (sortOn UpdateInfo.name l).map UpdateInfo.name = sortOn id (l.map UpdateInfo.name)) := by
  refine ⟨fun n m cs cs2 ds ds2 => ⟨rfl, rfl⟩, ?_, map_key_sortOn UpdateInfo.name⟩
  intro n cs ds
  exact ⟨by simp [updateInfoEq], compare_eq_iff_eq.mpr rfl⟩

/-- Behaviour of the checker on a repository that opens, fetches and
resolves its upstream: `none` exactly on equal revision ids, otherwise
the message list of the reachability difference. -/
lemma checker_spec (dirName : String) (pkg : PkgRepo) (u : Nat)
    (h1 : pkg.openFails = false) (h2 : pkg.fetchFails = false)
    (hu : resolveUpstream (postFetch pkg) = some u) :
    (revparseHead (postFetch pkg) = u →
      check_repo_updates dirName pkg = (postFetch pkg, .ok none)) ∧
    (revparseHead (postFetch pkg) ≠ u →
      check_repo_updates dirName pkg =
        (postFetch pkg, .ok (some ⟨dirName, newCommitMsgs pkg u⟩))) := by
  unfold newCommitMsgs newCommitIds
  unfold postFetch at hu ⊢
  constructor
  · intro heq
    unfold check_repo_updates
    simp [h1, h2, hu, heq]
  · intro hne
    unfold check_repo_updates
    simp [h1, h2, hu, hne]

/-- Behaviour of `pull_package` on a clean (no-divergence) repository:
report, success, and the post-fetch state unchanged in branch ref, HEAD
and working tree. -/
lemma pull_package_clean (name : String) (pkg : PkgRepo) (u : Nat)
    (h1 : pkg.openFails = false) (h2 : pkg.fetchFails = false)
    (hu : resolveUpstream (postFetch pkg) = some u)
    (heq : revparseHead (postFetch pkg) = u) :
    pull_package name pkg =
      ({ pkg with repo := postFetch pkg }, ["No new commits to pull"], .ok ()) := by
  have hcheck := (checker_spec name pkg u h1 h2 hu).1 heq
  unfold pull_package
  rw [hcheck]
  simp [h1]

/-- Behaviour of `pull_package` on a diverged repository: print the
name and the checker's messages in checker order, then move
`refs/heads/master` to the id recorded in FETCH_HEAD by the fetch (the
origin master tip), point HEAD at the branch and checkout. -/
lemma pull_package_diverged (name : String) (pkg : PkgRepo) (u : Nat)
    (h1 : pkg.openFails = false) (h2 : pkg.fetchFails = false)
    (hu : resolveUpstream (postFetch pkg) = some u)
    (hne : revparseHead (postFetch pkg) ≠ u) :
    pull_package name pkg =
      ({ pkg with repo :=
           { (postFetch pkg) with
               masterTarget := pkg.origin.masterTip,
               headRef := .onMaster,
               workdir := pkg.origin.masterTip } },
       (s!"Pulling {name}...") :: "" :: (newCommitMsgs pkg u).map (fun c => s!"* {c}"),
       .ok ()) := by
  have hcheck := (checker_spec name pkg u h1 h2 hu).2 hne
  unfold pull_package
  rw [hcheck]
  simp [h1, postFetch, fetchOrigin]

/-- When the current branch's configured upstream is origin/master, the
resolved upstream is exactly the fetched origin master tip. -/
lemma upstream_is_fetch_tip (pkg : PkgRepo) (u : Nat)
    (hu : resolveUpstream (postFetch pkg) = some u)
    (hcfg : pkg.repo.upstreamCfg = .originMaster) :
    pkg.origin.masterTip = u := by
  unfold postFetch fetchOrigin resolveUpstream at hu
  cases hh : pkg.repo.headRef with
  | detached i => rw [hh] at hu; simp at hu
  | onMaster => rw [hh] at hu; simp [hcfg] at hu; exact hu

/-- C2 (amended): for every repository whose check succeeds, the check
returns no divergence exactly when the local HEAD id equals the resolved
upstream id; otherwise it returns an `UpdateInfo` keyed by the directory
name whose commit-message list collects the messages of exactly those
difference commits that carry a decodable message — so its length equals
the count of difference commits with a message, and the local HEAD
commit itself is never among the walked commits (its message text can
still appear when another new commit carries an identical message). -/
theorem claim_C2_checker_divergence (dirName : String) (pkg : PkgRepo) (u : Nat)
    (h1 : pkg.openFails = false) (h2 : pkg.fetchFails = false)
    (hu : resolveUpstream (postFetch pkg) = some u) :
    (check_repo_updates dirName pkg = (postFetch pkg, .ok none) ↔
      revparseHead (postFetch pkg) = u) ∧
    (revparseHead (postFetch pkg) ≠ u →
      check_repo_updates dirName pkg =
        (postFetch pkg, .ok (some ⟨dirName, newCommitMsgs pkg u⟩)) ∧
      (newCommitMsgs pkg u).length =
        (newCommitIds pkg u).countP (fun i => (msgAt (postFetch pkg).graph i).isSome) ∧
      revparseHead (postFetch pkg) ∉ newCommitIds pkg u) := by
  have hs := checker_spec dirName pkg u h1 h2 hu
  refine ⟨⟨?_, hs.1⟩, ?_⟩
  · intro hc
    by_contra hne
    rw [hs.2 hne] at hc
    simp at hc
  · intro hne
    refine ⟨hs.2 hne, ?_, ?_⟩
    · unfold newCommitMsgs
      exact length_filterMap_eq_countP _ _
    · unfold newCommitIds
      exact self_not_mem_revDiff _ _ _

/-- Counterexample to C2 as stated: in `exC2` the local HEAD commit 0
and the new upstream commit 1 both carry the message text m, and the
new upstream commit 2 carries an undecodable message.  The checker
produces the list consisting of m alone — it DOES contain the local
HEAD's own message, and its length 1 differs from 2, the count of
commits reachable from upstream but not from local HEAD. -/
theorem claim_C2_counterexample :
    (check_repo_updates "pkg" exC2).2 = .ok (some ⟨"pkg", ["m"]⟩) ∧
    msgAt (postFetch exC2).graph (revparseHead (postFetch exC2)) = some "m" ∧
    resolveUpstream (postFetch exC2) = some 2 ∧
    "m" ∈ (UpdateInfo.commits ⟨"pkg", ["m"]⟩) ∧
    (newCommitIds exC2 2).length = 2 ∧
    (UpdateInfo.commits ⟨"pkg", ["m"]⟩).length ≠ (newCommitIds exC2 2).length := by
  refine ⟨rfl, rfl, rfl, ?_, rfl, by decide⟩
  simp [UpdateInfo.commits]

/-- Witness for C2 at the standard diverged repository `exDiverged`. -/
theorem claim_C2_witness :
    check_repo_updates "foo" exDiverged =
      (postFetch exDiverged, .ok (some ⟨"foo", newCommitMsgs exDiverged 5⟩)) ∧
    (newCommitMsgs exDiverged 5).length =
      (newCommitIds exDiverged 5).countP
        (fun i => (msgAt (postFetch exDiverged).graph i).isSome) ∧
    revparseHead (postFetch exDiverged) ∉ newCommitIds exDiverged 5 :=
  (claim_C2_checker_divergence "foo" exDiverged 5 rfl rfl rfl).2 (by decide)

/-- C3 (amended): a pull of a diverged repository prints the name and
the checker's commit messages in checker order and then moves
`refs/heads/master` to the id FETCH_HEAD records — the origin master
tip written by the checker's fetch — sets HEAD to that branch, and
force-checkouts the working tree to it.  When the branch's configured
upstream is origin/master — the ref the fetch updates — that id equals
the upstream-tracking revision the checker resolved (src/main.rs lines
327-348 use FETCH_HEAD while the checker at line 388 resolves the
upstream expression; a branch tracking another ref can be moved to a
revision other than the one its divergence was computed against). -/
theorem claim_C3_fast_forward (name : String) (pkg : PkgRepo) (u : Nat)
    (h1 : pkg.openFails = false) (h2 : pkg.fetchFails = false)
    (hu : resolveUpstream (postFetch pkg) = some u)
    (hne : revparseHead (postFetch pkg) ≠ u) :
    pull_package name pkg =
      ({ pkg with repo :=
           { (postFetch pkg) with
               masterTarget := pkg.origin.masterTip,
               headRef := .onMaster,
               workdir := pkg.origin.masterTip } },
       (s!"Pulling {name}...") :: "" :: (newCommitMsgs pkg u).map (fun c => s!"* {c}"),
       .ok ()) ∧
    (pkg.repo.upstreamCfg = .originMaster → pkg.origin.masterTip = u) :=
  ⟨pull_package_diverged name pkg u h1 h2 hu hne,
   fun hcfg => upstream_is_fetch_tip pkg u hu hcfg⟩

/-- Counterexample to C3 as stated: in `exC3` the master branch tracks a
ref at commit 2, so the checker resolves the upstream-tracking revision
to 2 and reports divergence, but the pull moves `refs/heads/master` to
commit 1 — the FETCH_HEAD id — not to the upstream revision 2. -/
theorem claim_C3_counterexample :
    (check_repo_updates "foo" exC3).2 = .ok (some ⟨"foo", ["c"]⟩) ∧
    resolveUpstream (postFetch exC3) = some 2 ∧
    (pull_package "foo" exC3).2.2 = .ok () ∧
    (pull_package "foo" exC3).1.repo.masterTarget = 1 ∧
    (1 : Nat) ≠ 2 :=
  ⟨rfl, rfl, rfl, rfl, by decide⟩

/-- Witness for C3 at the standard diverged repository `exDiverged`. -/
theorem claim_C3_witness :
    (pull_package "foo" exDiverged).1.repo.masterTarget = exDiverged.origin.masterTip ∧
    (exDiverged.repo.upstreamCfg = .originMaster → exDiverged.origin.masterTip = 5) := by
  have h := claim_C3_fast_forward "foo" exDiverged 5 rfl rfl rfl (by decide)
  refine ⟨?_, h.2⟩
  rw [h.1]

/-- C4 (amended): a pull of a repository with no divergence reports
no new commits, returns success, and moves no branch ref, leaves HEAD
unchanged and performs no checkout (the checker's fetch still updates
the remote-tracking ref and FETCH_HEAD, as spec §4.1 records).  Pulling
twice in a row on a diverged repository makes the second pull report no
divergence PROVIDED the branch's configured upstream is origin/master —
the ref the fetch updates; with any other configured upstream the pull
moves master to FETCH_HEAD, which never catches up with the upstream
the checker compares against. -/
theorem claim_C4_no_divergence_noop_and_idempotence (name : String) (pkg : PkgRepo) :
    (∀ u, pkg.openFails = false → pkg.fetchFails = false →
      resolveUpstream (postFetch pkg) = some u →
      revparseHead (postFetch pkg) = u →
      pull_package name pkg =
        ({ pkg with repo := postFetch pkg }, ["No new commits to pull"], .ok ()) ∧
      (postFetch pkg).masterTarget = pkg.repo.masterTarget ∧
      (postFetch pkg).headRef = pkg.repo.headRef ∧
      (postFetch pkg).workdir = pkg.repo.workdir) ∧
    (pkg.openFails = false → pkg.fetchFails = false →
      pkg.repo.headRef = .onMaster → pkg.repo.upstreamCfg = .originMaster →
      pkg.repo.masterTarget ≠ pkg.origin.masterTip →
      (check_repo_updates name pkg).2 =
        .ok (some ⟨name, newCommitMsgs pkg pkg.origin.masterTip⟩) ∧
      (pull_package name (pull_package name pkg).1).2.1 = ["No new commits to pull"]) := by
  constructor
  · intro u h1 h2 hu heq
    refine ⟨pull_package_clean name pkg u h1 h2 hu heq, ?_, ?_, ?_⟩ <;>
      simp [postFetch, fetchOrigin]
  · intro h1 h2 hhead hcfg hne
    have hu : resolveUpstream (postFetch pkg) = some pkg.origin.masterTip := by
      simp [postFetch, fetchOrigin, resolveUpstream, hhead, hcfg]
    have hrev : revparseHead (postFetch pkg) = pkg.repo.masterTarget := by
      simp [postFetch, fetchOrigin, revparseHead, hhead]
    have hne2 : revparseHead (postFetch pkg) ≠ pkg.origin.masterTip := by
      rw [hrev]
      exact hne
    have hcheck := (checker_spec name pkg pkg.origin.masterTip h1 h2 hu).2 hne2
    refine ⟨by rw [hcheck], ?_⟩
    have hfst : (pull_package name pkg).1 =
        { pkg with repo :=
            { (postFetch pkg) with
                masterTarget := pkg.origin.masterTip,
                headRef := .onMaster,
                workdir := pkg.origin.masterTip } } := by
      rw [pull_package_diverged name pkg pkg.origin.masterTip h1 h2 hu hne2]
    rw [hfst]
    have hu1 : resolveUpstream (postFetch
        { pkg with repo :=
            { (postFetch pkg) with
                masterTarget := pkg.origin.masterTip,
                headRef := .onMaster,
                workdir := pkg.origin.masterTip } }) = some pkg.origin.masterTip := by
      simp [postFetch, fetchOrigin, resolveUpstream, hcfg]
    have heq1 : revparseHead (postFetch
        { pkg with repo :=
            { (postFetch pkg) with
                masterTarget := pkg.origin.masterTip,
                headRef := .onMaster,
                workdir := pkg.origin.masterTip } }) = pkg.origin.masterTip := by
      simp [postFetch, fetchOrigin, revparseHead]
    rw [pull_package_clean name
        { pkg with repo :=
            { (postFetch pkg) with
                masterTarget := pkg.origin.masterTip,
                headRef := .onMaster,
                workdir := pkg.origin.masterTip } }
        pkg.origin.masterTip h1 h2 hu1 heq1]

/-- Counterexample to the idempotence half of C4 as stated: in `exC4`
the master branch tracks a ref at commit 3, origin's master tip is
commit 1; the first pull finds divergence and moves master to 1, and the
second pull still finds divergence (1 differs from 3) instead of
reporting no new commits. -/
theorem claim_C4_counterexample :
    (check_repo_updates "bar" exC4).2 = .ok (some ⟨"bar", ["r"]⟩) ∧
    (pull_package "bar" exC4).2.2 = .ok () ∧
    (pull_package "bar" (pull_package "bar" exC4).1).2.1 ≠ ["No new commits to pull"] := by
  refine ⟨rfl, rfl, by decide⟩

/-- Witness for C4: the clean repository's pull is a reported no-op, and
pulling the standard diverged repository twice makes the second pull
report no new commits. -/
theorem claim_C4_witness :
    pull_package "c" exClean =
      ({ exClean with repo := postFetch exClean }, ["No new commits to pull"], .ok ()) ∧
    (pull_package "foo" (pull_package "foo" exDiverged).1).2.1 =
      ["No new commits to pull"] :=
  ⟨((claim_C4_no_divergence_noop_and_idempotence "c" exClean).1 0 rfl rfl rfl rfl).1,
   ((claim_C4_no_divergence_noop_and_idempotence "foo" exDiverged).2
     rfl rfl rfl rfl (by decide)).2⟩

/-- C6: the aggregator is a pure rendering function: a non-empty
collection prints the header line, a blank, and one block per repository
in an order that is by-name ascending (pairwise) and a permutation of
the input; an empty collection prints the single no-updates line.  For
collections with pairwise-distinct names — as produced by the fetch
orchestrator, whose units come from distinct directory names — the
output is invariant under any permutation of the input, i.e. does not
depend on the order in which the individual checks completed. -/
theorem claim_C6_aggregator_sorted_render (infos : List UpdateInfo) :
    (infos = [] →
      print_update_info infos = ["There are currently no packages with upstream changes"]) ∧
    (infos ≠ [] →
      print_update_info infos =
        "The following packages have upstream changes:" :: "" ::
          (sortOn UpdateInfo.name infos).flatMap renderUpdateInfo ∧
      (sortOn UpdateInfo.name infos).Pairwise (fun a b => a.name ≤ b.name) ∧
      List.Perm (sortOn UpdateInfo.name infos) infos) ∧
    ((infos.map UpdateInfo.name).Nodup →
      ∀ infos2, List.Perm infos2 infos →
        print_update_info infos2 = print_update_info infos) := by
  refine ⟨?_, ?_, ?_⟩
  · rintro rfl
    rfl
  · intro h
    have hne : infos.isEmpty = false := by
      cases infos with
      | nil => exact absurd rfl h
      | cons a t => rfl
    exact ⟨by simp [print_update_info, hne], pairwise_sortOn _ _, perm_sortOn _ _⟩
  · intro hn infos2 hp
    have hs : sortOn UpdateInfo.name infos2 = sortOn UpdateInfo.name infos :=
      sortOn_eq_of_perm UpdateInfo.name hp (((hp.map UpdateInfo.name).nodup_iff).mpr hn)
    cases infos with
    | nil => rw [hp.eq_nil]
    | cons a t =>
      have h2 : infos2.isEmpty = false := by
        cases infos2 with
        | nil => exact absurd hp.symm.eq_nil (by simp)
        | cons b s => rfl
      simp [print_update_info, h2, hs]

/-- Witness for C6: concrete renderings of a two-element collection, of
the empty collection, and order-independence of the former. -/
theorem claim_C6_witness :
    print_update_info [⟨"b", ["y"]⟩, ⟨"a", ["x"]⟩] =
      "The following packages have upstream changes:" :: "" ::
        (sortOn UpdateInfo.name [⟨"b", ["y"]⟩, ⟨"a", ["x"]⟩]).flatMap renderUpdateInfo ∧
    print_update_info ([] : List UpdateInfo) =
      ["There are currently no packages with upstream changes"] ∧
    print_update_info [⟨"a", ["x"]⟩, ⟨"b", ["y"]⟩] =
      print_update_info [⟨"b", ["y"]⟩, ⟨"a", ["x"]⟩] :=
  ⟨((claim_C6_aggregator_sorted_render [⟨"b", ["y"]⟩, ⟨"a", ["x"]⟩]).2.1 (by simp)).1,
   (claim_C6_aggregator_sorted_render []).1 rfl,
   (claim_C6_aggregator_sorted_render [⟨"b", ["y"]⟩, ⟨"a", ["x"]⟩]).2.2 (by simp)
     [⟨"a", ["x"]⟩, ⟨"b", ["y"]⟩]
     (List.Perm.swap (⟨"b", ["y"]⟩ : UpdateInfo) (⟨"a", ["x"]⟩ : UpdateInfo) [])⟩

end Taur
